import Mathlib

/-!
Shallow embedding of the magnapinna relay service core (`rpc/server.go`):
the registration service (`Register`, `CheckRegistration`, `Deregister`),
the connection registry (`ConnCache.addClient` / `ConnCache.getClient`),
the error types (`RepositoryError`, `ValidationError`, `ErrNoLease`), and
the stream handlers (`JoinCluster` handshake and the `StartSession` relay
loop), together with theorems settling the specification claims.

Go pointers that may be nil are modelled as `Option`; a Go function that
returns `(value, error)` is modelled as a pair of `Option`s; a nil-pointer
dereference is modelled as an explicit `nilPanic` result.  The lease
repository is an oracle of pure functions, and every service operation
additionally returns the list of repository calls it performed, so that
"performs no repository call" claims are statable.
-/

namespace Magnapinna

/-- `api.Lease`: identifier plus absolute expiration (unix seconds). -/
structure Lease where
  identifier : String
  expiration : Int
deriving DecidableEq

/-- `api.Registration`: identifier plus requested duration (int32 seconds). -/
structure Registration where
  identifier : String
  duration : Int
deriving DecidableEq

/-- Go `error` values that flow through the server: the `ErrNoLease`
sentinel (compared by identity in the source), the two typed server
errors, and any other error (`fmt.Errorf`, transport errors, ...). -/
inductive GoErr where
  | errNoLease
  | validationError (s : String)
  | repositoryError (s : String)
  | other (s : String)
deriving DecidableEq

/-- One call made against the lease repository, with its argument.
`deleteLease` takes an `Option Lease` because the Go code passes the
fetched lease pointer, which may be nil, straight through. -/
inductive RepoCall where
  | fetchLease (rs : Registration)
  | storeLease (l : Lease)
  | deleteLease (l : Option Lease)
deriving DecidableEq

/-- The lease repository as a pure oracle: what each call would return.
`fetch` mirrors Go's `(lease pointer, error)` pair. -/
structure Repo where
  fetch : Registration → Option Lease × Option GoErr
  store : Lease → Option GoErr
  delete : Option Lease → Option GoErr

/-- `rsValid` from the source: `rs.Duration != 0 && rs.Identifier != ""`. -/
def rsValid (rs : Registration) : Bool :=
  rs.duration != 0 && rs.identifier != ""

/-- `repoErr` constant from the source. -/
def repoErrMsg : String := "error communicating with repository"

/-- `validErr` constant from the source. -/
def validErrMsg : String := "invalid request received"

/-- The `RepositoryError` type: carries the detailed internal message. -/
structure RepositoryError where
  s : String
deriving DecidableEq

/-- `RepositoryError.Error()`: `fmt.Sprintf("%s: %s", repoErr, r.s)`. -/
def RepositoryError.Error (r : RepositoryError) : String :=
  repoErrMsg ++ ": " ++ r.s

/-- `RepositoryError.Sanitized()`: the fixed caller-safe string. -/
def RepositoryError.Sanitized (_ : RepositoryError) : String :=
  repoErrMsg

/-- Result of `Server.Register`: a returned `(lease, error)` pair, or a
nil-pointer-dereference panic. -/
inductive RegisterResult where
  | ret (lease : Option Lease) (err : Option GoErr)
  | nilPanic
deriving DecidableEq

/-- `Server.CheckRegistration`: validate, then a single `FetchLease`,
returning whatever the repository yields. -/
def checkRegistration (repo : Repo) (rs : Registration) :
    (Option Lease × Option GoErr) × List RepoCall :=
  if !rsValid rs then
    ((none, some (.validationError "missing required fields")), [])
  else
    (repo.fetch rs, [.fetchLease rs])

/-- `Server.Register`: validate; fetch; on an error other than
`ErrNoLease` return it; otherwise assign `Expiration` and `Identifier`
through the fetched lease pointer (a nil pointer here panics), store the
updated lease and return it together with the store's error. -/
def register (repo : Repo) (now : Int) (rs : Registration) :
    RegisterResult × List RepoCall :=
  if !rsValid rs then
    (.ret none (some (.validationError "missing required fields")), [])
  else
    let f := repo.fetch rs
    if f.2 ≠ none ∧ f.2 ≠ some .errNoLease then
      (.ret none f.2, [.fetchLease rs])
    else
      match f.1 with
      | none => (.nilPanic, [.fetchLease rs])
      | some lease =>
        let stored := { lease with
          expiration := now + rs.duration, identifier := rs.identifier }
        (.ret (some stored) (repo.store stored),
          [.fetchLease rs, .storeLease stored])

/-- `Server.Deregister`: validate; fetch; on `ErrNoLease` return a fresh
empty lease and no error; on another error return it; otherwise delete
the fetched lease (pointer passed through) and return it with the
delete's error. -/
def deregister (repo : Repo) (rs : Registration) :
    (Option Lease × Option GoErr) × List RepoCall :=
  if !rsValid rs then
    ((none, some (.validationError "missing required fields")), [])
  else
    let f := repo.fetch rs
    if f.2 ≠ none ∧ f.2 ≠ some .errNoLease then
      ((none, f.2), [.fetchLease rs])
    else if f.2 = some .errNoLease then
      ((some { identifier := "", expiration := 0 }, none), [.fetchLease rs])
    else
      ((f.1, repo.delete f.1), [.fetchLease rs, .deleteLease f.1])

/-- A repository whose `FetchLease` reports `ErrNoLease` with a nil lease
pointer, the conventional Go shape for "not found". -/
def repoNoLeaseNil : Repo where
  fetch _ := (none, some .errNoLease)
  store _ := none
  delete _ := none

/-- A repository whose `FetchLease` succeeds with a fixed stored lease. -/
def repoWithLease : Repo where
  fetch _ := (some { identifier := "w", expiration := 99 }, none)
  store _ := none
  delete _ := none

/-- The connection registry `ConnCache`: an association list from
identifier to the live member stream handle (the Go map is only ever
extended at absent keys, so an association list is an exact model).
`H` is the handle type (`api.Magnapinna_JoinClusterServer`). -/
structure ConnCache (H : Type) where
  active : List (String × H)
deriving DecidableEq

/-- `ConnCache.addClient`: fail with "ID <id> has already connected" when
present, otherwise insert. Returns the new state and the error message. -/
def ConnCache.addClient {H : Type} (c : ConnCache H) (id : String) (join : H) :
    ConnCache H × Option String :=
  match c.active.lookup id with
  | some _ => (c, some ("ID " ++ id ++ " has already connected"))
  | none => ({ active := (id, join) :: c.active }, none)

/-- `ConnCache.getClient`: return the handle, or the error
"no action client with ID <id>" (sic, as written in the source). -/
def ConnCache.getClient {H : Type} (c : ConnCache H) (id : String) :
    Option H × Option String :=
  match c.active.lookup id with
  | some client => (some client, none)
  | none => (none, some ("no action client with ID " ++ id))

/-- `Server.JoinCluster` up to its idle state: receive the init message
(modelled as an `Except` carrying the identifier), run
`CheckRegistration` on a `Registration` holding only the identifier
(duration left at its zero value, as in the source), abort on any error,
otherwise insert into the registry; on insertion failure return that
error.  The result is the final registry state and the returned error
(`none` models the handler reaching its idle/trailer success path). -/
def joinCluster (repo : Repo) {H : Type} (cache : ConnCache H)
    (firstRecv : Except GoErr String) (self : H) :
    ConnCache H × Option GoErr :=
  match firstRecv with
  | .error e => (cache, some e)
  | .ok ident =>
    match (checkRegistration repo { identifier := ident, duration := 0 }).1.2 with
    | some e => (cache, some e)
    | none =>
      match cache.addClient ident self with
      | (c2, some msg) => (c2, some (.other msg))
      | (c2, none) => (c2, none)

/-- Events of one session relay loop, in program order: the four I/O
steps with the value and error they carried, the observer reports, and
the "closed" trailer attached on cancellation.  `μ` is the opaque
payload type of `Command`/`Output` messages. -/
inductive Ev (μ : Type) where
  | sessRecv (cmd : Option μ) (err : Option GoErr)
  | memberSend (cmd : Option μ) (err : Option GoErr)
  | memberRecv (output : Option μ) (err : Option GoErr)
  | sessSend (output : Option μ) (err : Option GoErr)
  | observe (name : String)
  | trailerClosed
deriving DecidableEq

/-- A bidirectional gRPC stream endpoint as a deterministic transition
system: `recv` yields the next `(message pointer, error)` pair, `send`
consumes a message pointer and yields an error; both update the stream
state `σ`. -/
structure Bistream (σ μ : Type) where
  recv : σ → σ × (Option μ × Option GoErr)
  send : σ → Option μ → σ × Option GoErr

/-- One iteration of the `StartSession` relay loop body (the `default`
branch of the select): receive a command from the session stream, send
it on the member stream, receive an output from the member stream, send
it back on the session stream.  Each step's failure is reported to the
observer with the call name from the source and never short-circuits
the iteration; the received value is forwarded regardless of the error
that accompanied it. -/
def relayStep {σ₁ σ₂ μ : Type} (sess : Bistream σ₁ μ) (mem : Bistream σ₂ μ)
    (st : σ₁ × σ₂) : (σ₁ × σ₂) × List (Ev μ) :=
  let a := sess.recv st.1
  let b := mem.send st.2 a.2.1
  let c := mem.recv b.1
  let d := sess.send a.1 c.2.1
  ((d.1, c.1),
    [Ev.sessRecv a.2.1 a.2.2]
      ++ (if a.2.2.isSome then [Ev.observe "start_session_recv"] else [])
      ++ [Ev.memberSend a.2.1 b.2]
      ++ (if b.2.isSome then [Ev.observe "start_session_cmd_send"] else [])
      ++ [Ev.memberRecv c.2.1 c.2.2]
      ++ (if c.2.2.isSome then [Ev.observe "start_session_output_recv"] else [])
      ++ [Ev.sessSend c.2.1 d.2]
      ++ (if d.2.isSome then [Ev.observe "start_session_output_send"] else []))

/-- The `StartSession` relay loop.  The fuel `n` counts the iterations
executed before the per-iteration check of the parent context observes
cancellation; when it does, the handler attaches the "closed" trailer
and returns nil.  The result is the final stream states, the event
trace, and the handler's return value. -/
def relayLoop {σ₁ σ₂ μ : Type} (sess : Bistream σ₁ μ) (mem : Bistream σ₂ μ) :
    Nat → σ₁ × σ₂ → (σ₁ × σ₂) × (List (Ev μ) × Option GoErr)
  | 0, st => (st, ([Ev.trailerClosed], none))
  | n + 1, st =>
    let a := relayStep sess mem st
    let b := relayLoop sess mem n a.1
    (b.1, (a.2 ++ b.2.1, b.2.2))

/-- A member handle that echoes each command it receives as its next
output: its state remembers the last command sent to it. -/
def echoMember (μ : Type) : Bistream (Option μ) μ where
  recv st := (st, (st, none))
  send _ cmd := (cmd, none)

/-- A session stream scripted with a list of commands to feed in, whose
state also accumulates the outputs sent back to the session caller. -/
def scriptSession (μ : Type) : Bistream (List μ × List (Option μ)) μ where
  recv st :=
    match st.1 with
    | c :: rest => ((rest, st.2), (some c, none))
    | [] => (st, (none, some (.other "EOF")))
  send st output := ((st.1, st.2 ++ [output]), none)

/-- Recognizers for the four I/O event kinds and the trailer. -/
def isSessRecv {μ : Type} : Ev μ → Bool
  | .sessRecv _ _ => true
  | _ => false

def isMemberSend {μ : Type} : Ev μ → Bool
  | .memberSend _ _ => true
  | _ => false

def isMemberRecv {μ : Type} : Ev μ → Bool
  | .memberRecv _ _ => true
  | _ => false

def isSessSend {μ : Type} : Ev μ → Bool
  | .sessSend _ _ => true
  | _ => false

def isTrailer {μ : Type} : Ev μ → Bool
  | .trailerClosed => true
  | _ => false

/-- C9: RepositoryError sanitization is noninterferent: any two
`RepositoryError` values, whatever their internal details, have the same
`Sanitized()` output, namely the fixed string
"error communicating with repository"; `Error()` keeps the detail. -/
theorem repositoryError_sanitized_noninterferent :
    ∀ r1 r2 : RepositoryError,
      r1.Sanitized = r2.Sanitized ∧
      r1.Sanitized = "error communicating with repository" ∧
      r1.Error = "error communicating with repository" ++ ": " ++ r1.s := by
  intro r1 r2
  exact ⟨rfl, rfl, rfl⟩

/-- C1: with a repository that answers `FetchLease` with `ErrNoLease` and
a nil lease pointer, `Register` on a valid registration reaches the field
assignment through the nil pointer and panics after exactly one
repository call, instead of proceeding with an empty lease. -/
theorem register_panics_on_absent_lease :
    register repoNoLeaseNil 1000 { identifier := "worker-1", duration := 60 } =
      (.nilPanic, [.fetchLease { identifier := "worker-1", duration := 60 }]) := by
  decide

/-- C4 counterexample: a registration with negative duration (non-positive,
so the claim demands a ValidationError and no repository access) passes
`rsValid` — the source only rejects `Duration == 0` — so
`CheckRegistration` returns no error at all and performs a `FetchLease`
call. -/
theorem validation_gap_negative_duration :
    (checkRegistration repoWithLease { identifier := "w", duration := -1 }).1.2 = none ∧
    (checkRegistration repoWithLease { identifier := "w", duration := -1 }).2 =
      [RepoCall.fetchLease { identifier := "w", duration := -1 }] := by
  exact ⟨rfl, rfl⟩

/-- C4 (amended): for every registration with an empty identifier or a
zero duration, each of `Register`, `CheckRegistration` and `Deregister`
returns a ValidationError and performs no repository call. -/
theorem invalid_registration_rejected_before_repo :
    ∀ (repo : Repo) (now : Int) (rs : Registration),
      rs.identifier = "" ∨ rs.duration = 0 →
        register repo now rs =
          (.ret none (some (.validationError "missing required fields")), []) ∧
        checkRegistration repo rs =
          ((none, some (.validationError "missing required fields")), []) ∧
        deregister repo rs =
          ((none, some (.validationError "missing required fields")), []) := by
  intro repo now rs h
  have hv : rsValid rs = false := by
    rcases h with h | h <;> simp [rsValid, h]
  exact ⟨by simp [register, hv], by simp [checkRegistration, hv],
    by simp [deregister, hv]⟩

/-- Witness for C4's amended theorem at the empty identifier. -/
theorem invalid_registration_rejected_before_repo_wit :
    ((Registration.mk "" 5).identifier = "" ∨ (Registration.mk "" 5).duration = 0) ∧
    register repoWithLease 7 (Registration.mk "" 5) =
      (.ret none (some (.validationError "missing required fields")), []) := by
  exact ⟨Or.inl rfl,
    (invalid_registration_rejected_before_repo repoWithLease 7
      (Registration.mk "" 5) (Or.inl rfl)).1⟩

/-- C6: `Deregister` is idempotent on absent leases: on a valid
registration, if `FetchLease` reports `ErrNoLease` it returns a fresh
empty lease with no error after only the fetch call (no `DeleteLease`);
if a lease is present it calls `DeleteLease` on that lease and returns
it (with the delete's error). -/
theorem deregister_idempotent_on_absent :
    ∀ (repo : Repo) (rs : Registration) (l : Lease),
      rsValid rs = true →
        (repo.fetch rs = (none, some .errNoLease) →
          deregister repo rs =
            ((some { identifier := "", expiration := 0 }, none),
              [.fetchLease rs])) ∧
        (repo.fetch rs = (some l, none) →
          deregister repo rs =
            ((some l, repo.delete (some l)),
              [.fetchLease rs, .deleteLease (some l)])) := by
  intro repo rs l hv
  constructor
  · intro hf
    simp [deregister, hv, hf]
  · intro hf
    simp [deregister, hv, hf]

/-- Witness for C6: both branches at concrete repositories. -/
theorem deregister_idempotent_on_absent_wit :
    rsValid (Registration.mk "w" 60) = true ∧
    deregister repoNoLeaseNil (Registration.mk "w" 60) =
      ((some { identifier := "", expiration := 0 }, none),
        [.fetchLease (Registration.mk "w" 60)]) ∧
    deregister repoWithLease (Registration.mk "w" 60) =
      ((some { identifier := "w", expiration := 99 }, none),
        [.fetchLease (Registration.mk "w" 60),
          .deleteLease (some { identifier := "w", expiration := 99 })]) := by
  refine ⟨by decide, ?_, ?_⟩
  · exact (deregister_idempotent_on_absent repoNoLeaseNil (Registration.mk "w" 60)
      { identifier := "w", expiration := 99 } (by decide)).1 rfl
  · have t := (deregister_idempotent_on_absent repoWithLease (Registration.mk "w" 60)
      { identifier := "w", expiration := 99 } (by decide)).2 rfl
    simpa using t

/-- C2: the connection registry holds at most one entry per identifier:
when `id` is present with handle `h`, `addClient id h2` fails with the
duplicate-connection error and leaves the state unchanged, so
`getClient id` still yields `h`; when `id` is absent, `addClient id h`
succeeds and `getClient id` then yields exactly `h`. -/
theorem connRegistry_at_most_one_entry :
    ∀ (H : Type) (c : ConnCache H) (id : String) (h h2 : H),
      (c.active.lookup id = some h →
        c.addClient id h2 = (c, some ("ID " ++ id ++ " has already connected")) ∧
        c.getClient id = (some h, none) ∧
        (c.addClient id h2).1.getClient id = (some h, none)) ∧
      (c.active.lookup id = none →
        (c.addClient id h).2 = none ∧
        (c.addClient id h).1.getClient id = (some h, none)) := by
  intro H c id h h2
  constructor
  · intro hl
    refine ⟨?_, ?_, ?_⟩ <;>
      simp [ConnCache.addClient, ConnCache.getClient, hl]
  · intro hl
    refine ⟨?_, ?_⟩ <;>
      simp [ConnCache.addClient, ConnCache.getClient, hl, List.lookup]

/-- Witness for C2: duplicate rejection on a one-entry registry and
successful insertion on the empty registry. -/
theorem connRegistry_at_most_one_entry_wit :
    ((ConnCache.mk [("w1", (5 : Nat))]).active.lookup "w1" = some 5) ∧
    (ConnCache.mk [("w1", (5 : Nat))]).addClient "w1" 6 =
      (ConnCache.mk [("w1", 5)], some ("ID " ++ "w1" ++ " has already connected")) ∧
    (ConnCache.mk [("w1", (5 : Nat))]).getClient "w1" = (some 5, none) ∧
    ((ConnCache.mk ([] : List (String × Nat))).addClient "w2" 7).1.getClient "w2" =
      (some 7, none) := by
  have t1 := (connRegistry_at_most_one_entry Nat (ConnCache.mk [("w1", 5)]) "w1" 5 6).1
    (by decide)
  have t2 := (connRegistry_at_most_one_entry Nat (ConnCache.mk []) "w2" 7 7).2 rfl
  exact ⟨by decide, t1.1, t1.2.1, t2.2⟩

/-- C8 counterexample: looking up an absent identifier does not produce
the message "no active client with ID w9" (the source writes "action",
not "active"). -/
theorem getClient_absent_message_cex :
    (ConnCache.mk ([] : List (String × Nat))).getClient "w9" ≠
      ((none : Option Nat), some "no active client with ID w9") := by
  decide

/-- C8 (amended): for every registry state and absent identifier,
`getClient` returns no handle and the error message
"no action client with ID <identifier>". -/
theorem getClient_absent_message :
    ∀ (H : Type) (c : ConnCache H) (id : String),
      c.active.lookup id = none →
        c.getClient id = (none, some ("no action client with ID " ++ id)) := by
  intro H c id hl
  simp [ConnCache.getClient, hl]

/-- Witness for C8's amended theorem on the empty registry. -/
theorem getClient_absent_message_wit :
    ((ConnCache.mk ([] : List (String × Nat))).active.lookup "w9" = none) ∧
    (ConnCache.mk ([] : List (String × Nat))).getClient "w9" =
      (none, some ("no action client with ID " ++ "w9")) :=
  ⟨rfl, getClient_absent_message Nat (ConnCache.mk []) "w9" rfl⟩

/-- C7: a member join whose `CheckRegistration` call returns any error is
never registered: the handler returns that error and the registry state
is unchanged. -/
theorem join_never_registered_on_check_error :
    ∀ (repo : Repo) (H : Type) (cache : ConnCache H) (ident : String) (self : H)
      (lopt : Option Lease) (e : GoErr),
      (checkRegistration repo { identifier := ident, duration := 0 }).1 = (lopt, some e) →
        joinCluster repo cache (.ok ident) self = (cache, some e) := by
  intro repo H cache ident self lopt e h
  have h2 : (checkRegistration repo { identifier := ident, duration := 0 }).1.2 = some e := by
    rw [h]
  simp [joinCluster, h2]

/-- Witness for C7 at a concrete repository, identifier and registry. -/
theorem join_never_registered_on_check_error_wit :
    ((checkRegistration repoWithLease { identifier := "w1", duration := 0 }).1 =
      ((none : Option Lease), some (.validationError "missing required fields"))) ∧
    joinCluster repoWithLease (ConnCache.mk ([] : List (String × Nat))) (.ok "w1") 3 =
      (ConnCache.mk [], some (.validationError "missing required fields")) := by
  exact ⟨by decide,
    join_never_registered_on_check_error repoWithLease Nat (ConnCache.mk []) "w1" 3
      none (.validationError "missing required fields") (by decide)⟩

/-- A stream endpoint whose receives and sends all fail (and whose
receives carry no message, the gRPC behavior on a failed `Recv`). -/
def failStream (μ : Type) : Bistream Unit μ where
  recv _ := ((), (none, some (.other "broken stream")))
  send _ _ := ((), some (.other "broken stream"))

theorem countP_obsIf {μ : Type} (b : Bool) (s : String) (f : Ev μ → Bool)
    (hf : f (.observe s) = false) :
    (if b then [Ev.observe s] else []).countP f = 0 := by
  cases b <;> simp [List.countP_cons, hf]

theorem relayStep_counts {σ₁ σ₂ μ : Type} (sess : Bistream σ₁ μ)
    (mem : Bistream σ₂ μ) (st : σ₁ × σ₂) :
    (relayStep sess mem st).2.countP isSessRecv = 1 ∧
    (relayStep sess mem st).2.countP isMemberSend = 1 ∧
    (relayStep sess mem st).2.countP isMemberRecv = 1 ∧
    (relayStep sess mem st).2.countP isSessSend = 1 ∧
    (relayStep sess mem st).2.countP isTrailer = 0 := by
  refine ⟨?_, ?_, ?_, ?_, ?_⟩ <;>
    simp [relayStep, List.countP_append, List.countP_cons, countP_obsIf,
      isSessRecv, isMemberSend, isMemberRecv, isSessSend, isTrailer]

theorem relayLoop_succ_trace {σ₁ σ₂ μ : Type} (sess : Bistream σ₁ μ)
    (mem : Bistream σ₂ μ) (n : Nat) (st : σ₁ × σ₂) :
    (relayLoop sess mem (n + 1) st).2.1 =
      (relayStep sess mem st).2 ++
        (relayLoop sess mem n (relayStep sess mem st).1).2.1 := rfl

theorem relayLoop_ret_none {σ₁ σ₂ μ : Type} (sess : Bistream σ₁ μ)
    (mem : Bistream σ₂ μ) : ∀ (n : Nat) (st : σ₁ × σ₂),
    (relayLoop sess mem n st).2.2 = none := by
  intro n
  induction n with
  | zero => intro st; rfl
  | succ k ih => intro st; exact ih (relayStep sess mem st).1

theorem relayLoop_countP {σ₁ σ₂ μ : Type} (sess : Bistream σ₁ μ)
    (mem : Bistream σ₂ μ) (f : Ev μ → Bool)
    (hstep : ∀ st, (relayStep sess mem st).2.countP f = 1)
    (htr : f .trailerClosed = false) :
    ∀ (n : Nat) (st : σ₁ × σ₂), (relayLoop sess mem n st).2.1.countP f = n := by
  intro n
  induction n with
  | zero => intro st; simp [relayLoop, List.countP_cons, htr]
  | succ k ih =>
    intro st
    rw [relayLoop_succ_trace, List.countP_append, hstep, ih]
    omega

theorem relayLoop_ends_in_trailer {σ₁ σ₂ μ : Type} (sess : Bistream σ₁ μ)
    (mem : Bistream σ₂ μ) : ∀ (n : Nat) (st : σ₁ × σ₂),
    ∃ evs, (relayLoop sess mem n st).2.1 = evs ++ [Ev.trailerClosed] ∧
      evs.countP isTrailer = 0 := by
  intro n
  induction n with
  | zero => intro st; exact ⟨[], rfl, rfl⟩
  | succ k ih =>
    intro st
    obtain ⟨evs, he, hc⟩ := ih (relayStep sess mem st).1
    refine ⟨(relayStep sess mem st).2 ++ evs, ?_, ?_⟩
    · rw [relayLoop_succ_trace, he, List.append_assoc]
    · rw [List.countP_append, hc, (relayStep_counts sess mem st).2.2.2.2]

theorem relayStep_observer_reports {σ₁ σ₂ μ : Type} (sess : Bistream σ₁ μ)
    (mem : Bistream σ₂ μ) (st : σ₁ × σ₂) :
    ((sess.recv st.1).2.2.isSome = true →
      Ev.observe "start_session_recv" ∈ (relayStep sess mem st).2) ∧
    ((mem.send st.2 (sess.recv st.1).2.1).2.isSome = true →
      Ev.observe "start_session_cmd_send" ∈ (relayStep sess mem st).2) ∧
    ((mem.recv (mem.send st.2 (sess.recv st.1).2.1).1).2.2.isSome = true →
      Ev.observe "start_session_output_recv" ∈ (relayStep sess mem st).2) ∧
    ((sess.send (sess.recv st.1).1
        (mem.recv (mem.send st.2 (sess.recv st.1).2.1).1).2.1).2.isSome = true →
      Ev.observe "start_session_output_send" ∈ (relayStep sess mem st).2) := by
  refine ⟨fun h => ?_, fun h => ?_, fun h => ?_, fun h => ?_⟩ <;>
    simp [relayStep, List.mem_append, h]

/-- C5: the relay loop is terminated only by the per-iteration
parent-context check: for arbitrary session and member streams (however
their steps fail), a loop that observes cancellation after `n`
iterations has returned nil, executed all four I/O steps in all `n`
iterations (none of their failures terminates it early), attached the
"closed" trailer exactly once, at the very end; and each failing step is
reported to the observer under its call name. -/
theorem relay_loop_terminates_only_on_cancellation :
    ∀ (σ₁ σ₂ μ : Type) (sess : Bistream σ₁ μ) (mem : Bistream σ₂ μ)
      (n : Nat) (st : σ₁ × σ₂),
      (relayLoop sess mem n st).2.2 = none ∧
      (relayLoop sess mem n st).2.1.countP isSessRecv = n ∧
      (relayLoop sess mem n st).2.1.countP isMemberSend = n ∧
      (relayLoop sess mem n st).2.1.countP isMemberRecv = n ∧
      (relayLoop sess mem n st).2.1.countP isSessSend = n ∧
      (∃ evs : List (Ev μ),
        (relayLoop sess mem n st).2.1 = evs ++ [Ev.trailerClosed] ∧
        evs.countP isTrailer = 0) ∧
      (∀ st' : σ₁ × σ₂,
        ((sess.recv st'.1).2.2.isSome = true →
          Ev.observe "start_session_recv" ∈ (relayStep sess mem st').2) ∧
        ((mem.send st'.2 (sess.recv st'.1).2.1).2.isSome = true →
          Ev.observe "start_session_cmd_send" ∈ (relayStep sess mem st').2) ∧
        ((mem.recv (mem.send st'.2 (sess.recv st'.1).2.1).1).2.2.isSome = true →
          Ev.observe "start_session_output_recv" ∈ (relayStep sess mem st').2) ∧
        ((sess.send (sess.recv st'.1).1
            (mem.recv (mem.send st'.2 (sess.recv st'.1).2.1).1).2.1).2.isSome = true →
          Ev.observe "start_session_output_send" ∈ (relayStep sess mem st').2)) := by
  intro σ₁ σ₂ μ sess mem n st
  refine ⟨relayLoop_ret_none sess mem n st, ?_, ?_, ?_, ?_,
    relayLoop_ends_in_trailer sess mem n st,
    fun st' => relayStep_observer_reports sess mem st'⟩
  · exact relayLoop_countP sess mem isSessRecv
      (fun s => (relayStep_counts sess mem s).1) rfl n st
  · exact relayLoop_countP sess mem isMemberSend
      (fun s => (relayStep_counts sess mem s).2.1) rfl n st
  · exact relayLoop_countP sess mem isMemberRecv
      (fun s => (relayStep_counts sess mem s).2.2.1) rfl n st
  · exact relayLoop_countP sess mem isSessSend
      (fun s => (relayStep_counts sess mem s).2.2.2.1) rfl n st

/-- Witness for C5 on streams whose every step fails, with two
iterations before cancellation. -/
theorem relay_loop_terminates_only_on_cancellation_wit :
    ((relayLoop (failStream String) (failStream String) 2 ((), ())).2.2 = none) ∧
    ((relayLoop (failStream String) (failStream String) 2
        ((), ())).2.1.countP isMemberSend = 2) ∧
    (((failStream String).recv ()).2.2.isSome = true ∧
      Ev.observe "start_session_recv" ∈
        (relayStep (failStream String) (failStream String) ((), ())).2) := by
  have t := relay_loop_terminates_only_on_cancellation Unit Unit String
    (failStream String) (failStream String) 2 ((), ())
  exact ⟨t.1, t.2.2.1, rfl, (t.2.2.2.2.2.2 ((), ())).1 rfl⟩

theorem relayLoop_memberSend_bound {σ₁ σ₂ μ : Type} (sess : Bistream σ₁ μ)
    (mem : Bistream σ₂ μ) :
    ∀ (n : Nat) (st : σ₁ × σ₂) (p q : List (Ev μ)),
      (relayLoop sess mem n st).2.1 = p ++ q →
        p.countP isMemberSend ≤ p.countP isSessSend + 1 := by
  intro n
  induction n with
  | zero =>
    intro st p q h
    have h0 : p.countP isMemberSend + q.countP isMemberSend = 0 := by
      rw [← List.countP_append, ← h]
      simp [relayLoop, List.countP_cons, isMemberSend]
    omega
  | succ k ih =>
    intro st p q h
    rw [relayLoop_succ_trace] at h
    rcases List.append_eq_append_iff.mp h.symm with ⟨a, ha, _⟩ | ⟨c, hc, hd⟩
    · -- p is a prefix of the first iteration: step = p ++ a
      have hms := (relayStep_counts sess mem st).2.1
      rw [ha, List.countP_append] at hms
      omega
    · -- p extends the whole first iteration: p = step ++ c, rest = c ++ q
      have hms := (relayStep_counts sess mem st).2.1
      have hss := (relayStep_counts sess mem st).2.2.2.1
      have hih := ih (relayStep sess mem st).1 c q hd
      rw [hc, List.countP_append, List.countP_append, hms, hss]
      omega

/-- C3: the relay loop is strictly serialized: in every prefix of any
relay trace the number of commands sent to the member exceeds the number
of outputs returned to the session caller by at most one (so command
n+1 is never sent before output n has been returned); and concretely,
against an echoing member, a session scripted with ["a", "b", "c"]
receives back exactly [a, b, c] in order, the member having been sent
a, b, c in order. -/
theorem relay_strictly_serialized :
    (∀ (σ₁ σ₂ μ : Type) (sess : Bistream σ₁ μ) (mem : Bistream σ₂ μ)
      (n : Nat) (st : σ₁ × σ₂) (p q : List (Ev μ)),
      (relayLoop sess mem n st).2.1 = p ++ q →
        p.countP isMemberSend ≤ p.countP isSessSend + 1) ∧
    ((relayLoop (scriptSession String) (echoMember String) 3
        ((["a", "b", "c"], []), none)).1.1.2 =
      [some "a", some "b", some "c"]) ∧
    ((relayLoop (scriptSession String) (echoMember String) 3
        ((["a", "b", "c"], []), none)).2.1.filter isMemberSend =
      [Ev.memberSend (some "a") none, Ev.memberSend (some "b") none,
        Ev.memberSend (some "c") none]) := by
  exact ⟨fun σ₁ σ₂ μ sess mem n st p q h =>
    relayLoop_memberSend_bound sess mem n st p q h, by decide, by decide⟩

/-- Witness for C3's serialization bound on a concrete one-command echo
trace split after the member send. -/
theorem relay_strictly_serialized_wit :
    ((relayLoop (scriptSession String) (echoMember String) 1
        (((["a"], []), none))).2.1 =
      [Ev.sessRecv (some "a") none, Ev.memberSend (some "a") none,
        Ev.memberRecv (some "a") none] ++
      [Ev.sessSend (some "a") none, Ev.trailerClosed]) ∧
    ([Ev.sessRecv (some "a") none, Ev.memberSend (some "a") none,
        Ev.memberRecv (some "a") none].countP isMemberSend ≤
      [Ev.sessRecv (some "a") none, Ev.memberSend (some "a") none,
        Ev.memberRecv (some "a") none].countP isSessSend + 1) := by
  exact ⟨by decide,
    relay_strictly_serialized.1 (List String × List (Option String))
      (Option String) String (scriptSession String) (echoMember String) 1
      ((["a"], []), none)
      [Ev.sessRecv (some "a") none, Ev.memberSend (some "a") none,
        Ev.memberRecv (some "a") none]
      [Ev.sessSend (some "a") none, Ev.trailerClosed] (by decide)⟩

/-- C10: a failed receive does not skip the following send: when the
session receive fails, the (absent) command it produced is still passed
to the member send of the same iteration, and when the member receive
fails, the (absent) output is still passed to the session send. -/
theorem relay_forwards_value_despite_error :
    ∀ (σ₁ σ₂ μ : Type) (sess : Bistream σ₁ μ) (mem : Bistream σ₂ μ)
      (st : σ₁ × σ₂),
      ((sess.recv st.1).2.2.isSome = true →
        Ev.memberSend (sess.recv st.1).2.1
          (mem.send st.2 (sess.recv st.1).2.1).2 ∈ (relayStep sess mem st).2) ∧
      ((mem.recv (mem.send st.2 (sess.recv st.1).2.1).1).2.2.isSome = true →
        Ev.sessSend (mem.recv (mem.send st.2 (sess.recv st.1).2.1).1).2.1
          (sess.send (sess.recv st.1).1
            (mem.recv (mem.send st.2 (sess.recv st.1).2.1).1).2.1).2 ∈
          (relayStep sess mem st).2) := by
  intro σ₁ σ₂ μ sess mem st
  refine ⟨fun h => ?_, fun h => ?_⟩ <;> simp [relayStep, List.mem_append]

/-- Witness for C10 on streams whose every step fails: the nil command
and nil output are still forwarded. -/
theorem relay_forwards_value_despite_error_wit :
    (((failStream String).recv ()).2.2.isSome = true ∧
      Ev.memberSend (none : Option String) (some (.other "broken stream")) ∈
        (relayStep (failStream String) (failStream String) ((), ())).2) ∧
    (Ev.sessSend (none : Option String) (some (.other "broken stream")) ∈
      (relayStep (failStream String) (failStream String) ((), ())).2) := by
  have t := relay_forwards_value_despite_error Unit Unit String
    (failStream String) (failStream String) ((), ())
  exact ⟨⟨rfl, t.1 rfl⟩, t.2 rfl⟩

end Magnapinna
